import Mathlib

/-!
Verification of the tsip-flow reactive value container.

The development shallowly embeds the two classes of the repository:

* `MutableFlowImpl` (src/src/create-flow.ts): a holder of a current value
  with a `Set` of subscriptions, `subscribe`, `emit`, `getSnapshot`.
* `MutableAsyncFlowImpl` (src/unnamed/part_000, create-async-flow.ts):
  extends the base flow over the tagged union `AsyncFlowState` and adds a
  cached promise (`asPromise`) plus cache invalidation inside `emit`.

Modelling decisions, all driven by the source:

* Listener callbacks are arbitrary effectful closures in TypeScript.  They
  are deeply embedded: each subscription stores a key (for external
  listeners) or a resolver tag (for the internal promise listener created by
  `asPromise`), and an environment maps keys to a list of primitive actions
  (throw, subscribe, unsubscribe, call asPromise).  A thrown failure aborts
  the rest of the listener body, exactly as a JS `throw` does.
* `emit` iterates `this.subscriptions` — the live JS `Set` — with `for..of`.
  ECMAScript Set iteration visits entries in insertion order, visits entries
  inserted during the iteration, and skips entries deleted before being
  reached.  `passLoop` realises exactly this: it repeatedly picks the first
  subscription whose id has not been visited yet.  Because listeners may keep
  adding subscriptions, the loop is fuel-bounded; `none` means the fuel ran
  out (the JS original would still be looping).
* Subscription objects have JS object identity; this is modelled by a
  fresh-id counter `nextId`.  `Set.delete` of a subscription object is a
  filter on that id.
* Promises have JS object identity; they are modelled by ids from a counter
  `nextPromiseId`.  Settling a promise records its result once
  (resolve/reject on an already settled promise is a no-op).
* Thrown error values and rejection causes are opaque payloads propagated by
  identity; they are modelled by the opaque tokens `Err := Nat`, so value
  equality of tokens is object identity.
-/

namespace TsipFlow

/-- Opaque failure payload (a thrown value or a rejection cause).  The token
is propagated unchanged, so equality of tokens models JS object identity. -/
abbrev Err := Nat

/-- One entry of the `subscriptions` Set: the subscription object identity
`id` and the stored `listener`.  `L` is `Nat` (an environment key) for the
base flow and `AListener` for the async flow. -/
structure Sub (L : Type) where
  id : Nat
  listener : L
deriving DecidableEq

/-- The subscription the `for..of` loop over the live Set visits next, given
the ids `done` that were already visited: the first entry not yet visited.
This is ECMAScript Set iteration: insertion order; entries inserted during
the iteration are visited; entries deleted before being reached are skipped
(deletions remove them from `subs`, insertions append). -/
def findNext {L : Type} (done : List Nat) (subs : List (Sub L)) : Option (Sub L) :=
  subs.find? (fun sub => !(done.contains sub.id))

/-- The `errors.push(error)` of a caught listener failure (accumulator is
kept reversed). -/
def consErr (e : Option Err) (errs : List Err) : List Err :=
  match e with
  | some e => e :: errs
  | none => errs

/-- The notification loop of `MutableFlowImpl.emit`: `for (const subscription
of this.subscriptions) { try { subscription.listener() } catch (e) {
errors.push(e) } }` over the live Set.  `runL` runs one listener and returns
the new whole-object state plus the failure it threw, if any.  Returns the
final state, the log of invoked subscription ids in invocation order, and
the collected errors in order; `none` when the fuel is exhausted. -/
def passLoop {σ L : Type} (subsOf : σ → List (Sub L)) (runL : L → σ → σ × Option Err) :
    Nat → σ → List Nat → List Err → Option (σ × List Nat × List Err)
  | fuel, s, done, errs =>
    match findNext done (subsOf s) with
    | none => some (s, done.reverse, errs.reverse)
    | some sub =>
      match fuel with
      | 0 => none
      | fuel' + 1 =>
        let r := runL sub.listener s
        passLoop subsOf runL fuel' r.1 (sub.id :: done) (consErr r.2 errs)

/-- Primitive things an external listener of the base flow can do, in order:
nothing, throw a failure (which ends the listener body), subscribe a new
listener (given by its environment key), or call `unsubscribe` of the
subscription with the given id. -/
inductive Action where
  | noop
  | throwErr (e : Err)
  | subscribeL (k : Nat)
  | unsubscribeS (sid : Nat)
deriving DecidableEq

/-- State of a `MutableFlowImpl` instance: the current `value`, the
`subscriptions` Set (insertion ordered), and a counter supplying the JS
object identity of the next subscription object. -/
structure FlowState (Data : Type) where
  value : Data
  subs : List (Sub Nat)
  nextId : Nat
deriving DecidableEq

namespace MutableFlowImpl

/-- `subscribe(listener)`: builds a fresh subscription object holding the
listener, adds it to the Set (appended: the object is new, hence not yet a
member), and returns it.  The returned `Nat` is the id of the subscription,
through which `unsubscribe` can be called. -/
def subscribe {Data : Type} (k : Nat) (s : FlowState Data) : FlowState Data × Nat :=
  ({ s with subs := s.subs ++ [⟨s.nextId, k⟩], nextId := s.nextId + 1 }, s.nextId)

/-- The `unsubscribe` closure of the subscription with id `sid`:
`this.subscriptions.delete(subscription)` — removes exactly that entry, a
no-op when it is not a member. -/
def unsubscribe {Data : Type} (sid : Nat) (s : FlowState Data) : FlowState Data :=
  { s with subs := s.subs.filter (fun sub => sub.id != sid) }

/-- Runs one primitive action of a listener body; the second component is
the failure the action threw, if any. -/
def runAction {Data : Type} (a : Action) (s : FlowState Data) : FlowState Data × Option Err :=
  match a with
  | .noop => (s, none)
  | .throwErr e => (s, some e)
  | .subscribeL k => ((subscribe k s).1, none)
  | .unsubscribeS sid => (unsubscribe sid s, none)

/-- Runs a listener body: actions run in order, and a thrown failure aborts
the rest of the body (JS `throw`). -/
def runBody {Data : Type} : List Action → FlowState Data → FlowState Data × Option Err
  | [], s => (s, none)
  | a :: rest, s =>
    match runAction a s with
    | (s', some e) => (s', some e)
    | (s', none) => runBody rest s'

/-- The notification pass of `emit`, with listener bodies supplied by the
environment `env`. -/
def pass {Data : Type} (env : Nat → List Action) :
    Nat → FlowState Data → List Nat → List Err → Option (FlowState Data × List Nat × List Err) :=
  passLoop (fun s => s.subs) (fun k s => runBody (env k) s)

/-- `emit(value)`: sets `this.value = value` unconditionally, then runs the
notification pass over the live Set collecting per-listener failures.  The
TypeScript method throws `new AggregateError(errors, ...)` at the end iff
the returned error list is nonempty; the state change is kept regardless. -/
def emit {Data : Type} (env : Nat → List Action) (fuel : Nat) (value : Data)
    (s : FlowState Data) : Option (FlowState Data × List Nat × List Err) :=
  pass env fuel { s with value := value } [] []

/-- `getSnapshot()`: returns the current value. -/
def getSnapshot {Data : Type} (s : FlowState Data) : Data :=
  s.value

end MutableFlowImpl

/-- `createFlow(initialValue)`: a fresh flow with the initial value and an
empty subscriptions Set. -/
def createFlow {Data : Type} (initialValue : Data) : FlowState Data :=
  { value := initialValue, subs := [], nextId := 0 }

/-- The tagged union `AsyncFlowState` consumed by the async flow:
`{status:"pending"} | {status:"success",data} | {status:"error",error}`. -/
inductive AsyncFlowState (Data : Type) where
  | pending
  | success (data : Data)
  | error (error : Err)
deriving DecidableEq

/-- Settlement record of a promise: resolved with data or rejected with the
original cause. -/
inductive PromiseResult (Data : Type) where
  | resolved (data : Data)
  | rejected (error : Err)
deriving DecidableEq

/-- A listener stored in an async flow's Set: either an external listener
(environment key `k`), or the internal listener the `asPromise` executor
subscribes, closed over its promise `p` and its own subscription `sid`. -/
inductive AListener where
  | ext (k : Nat)
  | resolver (p : Nat) (sid : Nat)
deriving DecidableEq

/-- State of a `MutableAsyncFlowImpl` instance: the base-flow fields
(`value`, `subs`, `nextId`) plus the cached promise (`promise`, the
`this.promise` field, `none` = null), the settlement records of every
promise ever created, and the id supply for promise object identity. -/
structure AsyncFlow (Data : Type) where
  value : AsyncFlowState Data
  subs : List (Sub AListener)
  nextId : Nat
  promise : Option Nat
  promiseStates : List (Nat × PromiseResult Data)
  nextPromiseId : Nat
deriving DecidableEq

/-- Primitive things an external listener of the async flow can do. -/
inductive AAction where
  | noop
  | throwErr (e : Err)
  | subscribeExt (k : Nat)
  | unsubscribeS (sid : Nat)
  | askPromise
deriving DecidableEq

namespace MutableAsyncFlowImpl

/-- `subscribe(listener)`: inherited from `MutableFlowImpl`, acting on the
async state. -/
def subscribe {Data : Type} (l : AListener) (s : AsyncFlow Data) : AsyncFlow Data × Nat :=
  ({ s with subs := s.subs ++ [⟨s.nextId, l⟩], nextId := s.nextId + 1 }, s.nextId)

/-- The `unsubscribe` closure of the subscription with id `sid`, inherited
from the base flow. -/
def unsubscribe {Data : Type} (sid : Nat) (s : AsyncFlow Data) : AsyncFlow Data :=
  { s with subs := s.subs.filter (fun sub => sub.id != sid) }

/-- Calling `resolve`/`reject` of promise `p`: records the settlement, a
no-op when `p` is already settled (JS promises settle once). -/
def settle {Data : Type} (p : Nat) (r : PromiseResult Data) (s : AsyncFlow Data) : AsyncFlow Data :=
  if (s.promiseStates.map Prod.fst).contains p then s
  else { s with promiseStates := s.promiseStates ++ [(p, r)] }

/-- Whether `state.status === "pending"`. -/
def statusPending {Data : Type} : AsyncFlowState Data → Bool
  | .pending => true
  | .success _ => false
  | .error _ => false

/-- The cache-invalidation switch at the top of `MutableAsyncFlowImpl.emit`:
`switch (value.status)` with one arm for `pending` and a shared arm for
`success`/`error`, each doing `if (this.value.status !== "pending") {
this.promise = null; }`.  The previous state decides; every arm is the same
test, so the cached promise is cleared exactly when the previous state was
resolved. -/
def invalidateFor {Data : Type} (value : AsyncFlowState Data) (s : AsyncFlow Data) :
    AsyncFlow Data :=
  match value with
  | .pending => cond (statusPending s.value) s { s with promise := none }
  | .success _ => cond (statusPending s.value) s { s with promise := none }
  | .error _ => cond (statusPending s.value) s { s with promise := none }

/-- `asPromise()`: `this.promise ??= new Promise((resolve, reject) => ...)`.
Returns the cached promise if present; otherwise creates a fresh one, caches
it, and runs the executor: an already resolved state settles it immediately
with the snapshot's data or original error; a pending state subscribes the
internal resolver listener, closed over the promise and its own
subscription. -/
def asPromise {Data : Type} (s : AsyncFlow Data) : Nat × AsyncFlow Data :=
  match s.promise with
  | some p => (p, s)
  | none =>
    let p := s.nextPromiseId
    let s1 : AsyncFlow Data := { s with promise := some p, nextPromiseId := s.nextPromiseId + 1 }
    match s1.value with
    | .success d => (p, settle p (.resolved d) s1)
    | .error e => (p, settle p (.rejected e) s1)
    | .pending => (p, (subscribe (.resolver p s1.nextId) s1).1)

/-- Runs one primitive action of an external async listener body. -/
def runAAction {Data : Type} (a : AAction) (s : AsyncFlow Data) : AsyncFlow Data × Option Err :=
  match a with
  | .noop => (s, none)
  | .throwErr e => (s, some e)
  | .subscribeExt k => ((subscribe (.ext k) s).1, none)
  | .unsubscribeS sid => (unsubscribe sid s, none)
  | .askPromise => ((asPromise s).2, none)

/-- Runs an external listener body; a thrown failure aborts the rest. -/
def runABody {Data : Type} : List AAction → AsyncFlow Data → AsyncFlow Data × Option Err
  | [], s => (s, none)
  | a :: rest, s =>
    match runAAction a s with
    | (s', some e) => (s', some e)
    | (s', none) => runABody rest s'

/-- Runs one async listener.  The internal resolver (the subscription made
by the `asPromise` executor) re-reads the current state: pending is ignored;
otherwise it unsubscribes itself and settles its promise from the snapshot,
rejecting with the original error or resolving with the data. -/
def runAListener {Data : Type} (env : Nat → List AAction) (l : AListener) (s : AsyncFlow Data) :
    AsyncFlow Data × Option Err :=
  match l with
  | .ext k => runABody (env k) s
  | .resolver p sid =>
    match s.value with
    | .pending => (s, none)
    | .error e => (settle p (.rejected e) (unsubscribe sid s), none)
    | .success d => (settle p (.resolved d) (unsubscribe sid s), none)

/-- The inherited notification pass, running async listeners. -/
def pass {Data : Type} (env : Nat → List AAction) :
    Nat → AsyncFlow Data → List Nat → List Err → Option (AsyncFlow Data × List Nat × List Err) :=
  passLoop (fun s => s.subs) (runAListener env)

/-- `MutableAsyncFlowImpl.emit(value)`: first the cache-invalidation switch
(deciding on the previous `this.value`), then `super.emit(value)` — set the
value unconditionally and run the notification pass. -/
def emit {Data : Type} (env : Nat → List AAction) (fuel : Nat) (value : AsyncFlowState Data)
    (s : AsyncFlow Data) : Option (AsyncFlow Data × List Nat × List Err) :=
  let s1 := invalidateFor value s
  pass env fuel { s1 with value := value } [] []

end MutableAsyncFlowImpl

/-- `createAsyncFlow(initialValue)`: a fresh async flow in the given initial
state, with no cached promise. -/
def createAsyncFlow {Data : Type} (initialValue : AsyncFlowState Data) : AsyncFlow Data :=
  { value := initialValue, subs := [], nextId := 0, promise := none,
    promiseStates := [], nextPromiseId := 0 }

/-- Environment with no external listener behaviour (used by scenarios whose
flows carry only resolver subscriptions or none). -/
def envE : Nat → List AAction := fun _ => []

/-- An action of a base-flow listener body that does not touch the registry:
doing nothing or throwing. -/
def pureAct : Action → Bool
  | .noop => true
  | .throwErr _ => true
  | .subscribeL _ => false
  | .unsubscribeS _ => false

/-- The failure a base-flow listener body throws, if any (execution stops
there). -/
def firstErr : List Action → Option Err
  | [] => none
  | .throwErr e :: _ => some e
  | _ :: rest => firstErr rest

/-- Every listener registered in `s` has a registry-neutral body under
`env`. -/
def FlowPureB {Data : Type} (env : Nat → List Action) (s : FlowState Data) : Bool :=
  s.subs.all (fun sub => (env sub.listener).all pureAct)

/-- An action of an async external listener body that does not touch the
flow state: doing nothing or throwing. -/
def pureAAct : AAction → Bool
  | .noop => true
  | .throwErr _ => true
  | .subscribeExt _ => false
  | .unsubscribeS _ => false
  | .askPromise => false

/-- The failure an async external listener body throws, if any. -/
def firstAErr : List AAction → Option Err
  | [] => none
  | .throwErr e :: _ => some e
  | _ :: rest => firstAErr rest

/-- A state-neutral async listener: an external listener whose body only
does nothing or throws (the internal resolver is never state-neutral). -/
def aListenerPureB (env : Nat → List AAction) : AListener → Bool
  | .ext k => (env k).all pureAAct
  | .resolver _ _ => false

/-- The failure a state-neutral async listener throws, if any. -/
def errOfListener (env : Nat → List AAction) : AListener → Option Err
  | .ext k => firstAErr (env k)
  | .resolver _ _ => none

/-- Every listener registered in the async flow `s` is state-neutral under
`env`. -/
def APureB {Data : Type} (env : Nat → List AAction) (s : AsyncFlow Data) : Bool :=
  s.subs.all (fun sub => aListenerPureB env sub.listener)

/-- Environment with no base-flow listener behaviour. -/
def envNoop : Nat → List Action := fun _ => []

/-- Scenario: listener 0 subscribes a new listener (key 1, which does
nothing) during the notification pass. -/
def envReentrant : Nat → List Action := fun k =>
  match k with
  | 0 => [.subscribeL 1]
  | _ => []

/-- Scenario: listeners 1 and 3 throw the opaque failures 10 and 20; the
others succeed. -/
def envThrow : Nat → List Action := fun k =>
  match k with
  | 1 => [.throwErr 10]
  | 3 => [.throwErr 20]
  | _ => []

/-- Scenario: listener 0 cancels the subscription with id 1. -/
def envCancel : Nat → List Action := fun k =>
  match k with
  | 0 => [.unsubscribeS 1]
  | _ => []

/-- Scenario: listener 0 calls `asPromise()` during the pass; listener 1
throws the opaque failure `e`. -/
def envAsk (e : Err) : Nat → List AAction := fun k =>
  match k with
  | 0 => [.askPromise]
  | 1 => [.throwErr e]
  | _ => []

/-- A four-listener flow (keys 0..3) used with `envThrow`: the pattern
[ok, fail, ok, fail]. -/
def fourFlow : FlowState Nat :=
  { value := 0, subs := [⟨0, 0⟩, ⟨1, 1⟩, ⟨2, 2⟩, ⟨3, 3⟩], nextId := 4 }

/-- Helper: `find?` skips a block of elements on which the predicate is
false. -/
lemma find?_append_false {α : Type} (p : α → Bool) (l1 l2 : List α)
    (h : ∀ x ∈ l1, p x = false) : (l1 ++ l2).find? p = l2.find? p := by
  induction l1 with
  | nil => rfl
  | cons a t ih =>
    have ha : ¬ p a = true := by simp [h a (by simp)]
    simpa [List.find?_cons_of_neg _ ha] using ih (fun x hx => h x (by simp [hx]))

/-- When no listener invocation changes the state, the pass visits exactly
the not-yet-visited suffix of the registry, in order, and collects each
listener's thrown failure in that order.  `pre` is the already-visited
prefix, `post` the remainder. -/
lemma passLoop_static {σ L : Type} (subsOf : σ → List (Sub L))
    (runL : L → σ → σ × Option Err) (s : σ)
    (hrun : ∀ sub ∈ subsOf s, (runL sub.listener s).1 = s) :
    ∀ (post pre : List (Sub L)) (fuel : Nat) (errs : List Err),
      subsOf s = pre ++ post →
      ((subsOf s).map (fun sub => sub.id)).Nodup →
      post.length ≤ fuel →
      passLoop subsOf runL fuel s ((pre.map (fun sub => sub.id)).reverse) errs
        = some (s, (subsOf s).map (fun sub => sub.id),
            errs.reverse ++ post.filterMap (fun sub => (runL sub.listener s).2)) := by
  intro post
  induction post with
  | nil =>
    intro pre fuel errs hsplit hnodup hfuel
    rw [passLoop]
    have hnone : findNext ((pre.map (fun sub => sub.id)).reverse) (subsOf s) = none := by
      unfold findNext
      apply List.find?_eq_none.mpr
      intro sub hsub
      have hid : sub.id ∈ pre.map (fun sub => sub.id) := by
        rw [hsplit, List.append_nil] at hsub
        exact List.mem_map.mpr ⟨sub, hsub, rfl⟩
      simp [List.contains, List.elem_iff, hid]
    rw [hnone]
    simp [hsplit]
  | cons sub rest ih =>
    intro pre fuel errs hsplit hnodup hfuel
    have hsubmem : sub ∈ subsOf s := by rw [hsplit]; simp
    have hidnotpre : sub.id ∉ pre.map (fun sub => sub.id) := by
      intro hmem
      rw [hsplit, List.map_append] at hnodup
      exact (List.nodup_append.mp hnodup).2.2 hmem (by simp)
    have hfind : findNext ((pre.map (fun sub => sub.id)).reverse) (subsOf s) = some sub := by
      unfold findNext
      rw [hsplit, find?_append_false]
      · have hp : (!((pre.map (fun sub => sub.id)).reverse.contains sub.id)) = true := by
          simp [List.contains, List.elem_iff, hidnotpre]
        exact List.find?_cons_of_pos _ hp
      · intro x hx
        have hid : x.id ∈ pre.map (fun sub => sub.id) := List.mem_map.mpr ⟨x, hx, rfl⟩
        simp [List.contains, List.elem_iff, hid]
    cases fuel with
    | zero => exact absurd hfuel (by simp)
    | succ fuel' =>
      rw [passLoop, hfind]
      have hr1 : (runL sub.listener s).1 = s := hrun sub hsubmem
      have hpre' : subsOf s = (pre ++ [sub]) ++ rest := by rw [hsplit]; simp
      have hdone' : ((pre ++ [sub]).map (fun sub => sub.id)).reverse
          = sub.id :: (pre.map (fun sub => sub.id)).reverse := by
        simp
      have hrec := ih (pre ++ [sub]) fuel' (consErr (runL sub.listener s).2 errs) hpre' hnodup
        (Nat.le_of_succ_le_succ hfuel)
      rw [hdone'] at hrec
      simp only [hr1] at hrec ⊢
      rw [hrec]
      cases he : (runL sub.listener s).2 with
      | none => simp [consErr, List.filterMap_cons, he]
      | some e => simp [consErr, List.filterMap_cons, he]

/-- During a pass, once a subscription id can no longer appear in the
registry (an invariant `P` preserved by every listener excludes it) and has
not been visited yet, it is never invoked in the remainder of the pass. -/
lemma passLoop_not_logged {σ L : Type} (subsOf : σ → List (Sub L))
    (runL : L → σ → σ × Option Err) (P : σ → Prop) (t : Nat)
    (hstep : ∀ l s, P s → P (runL l s).1)
    (hid : ∀ s, P s → ∀ sub ∈ subsOf s, sub.id ≠ t) :
    ∀ (fuel : Nat) (s : σ) (done : List Nat) (errs : List Err) s' log errsO,
      P s → t ∉ done →
      passLoop subsOf runL fuel s done errs = some (s', log, errsO) → t ∉ log := by
  intro fuel
  induction fuel with
  | zero =>
    intro s done errs s' log errsO hP hdone hpass
    rw [passLoop] at hpass
    cases hfind : findNext done (subsOf s) with
    | none =>
      rw [hfind] at hpass
      simp only [Option.some.injEq, Prod.mk.injEq] at hpass
      obtain ⟨h1, h2, h3⟩ := hpass
      rw [← h2]
      simpa [List.mem_reverse] using hdone
    | some sub => rw [hfind] at hpass; exact absurd hpass (by simp)
  | succ fuel' ih =>
    intro s done errs s' log errsO hP hdone hpass
    rw [passLoop] at hpass
    cases hfind : findNext done (subsOf s) with
    | none =>
      rw [hfind] at hpass
      simp only [Option.some.injEq, Prod.mk.injEq] at hpass
      obtain ⟨h1, h2, h3⟩ := hpass
      rw [← h2]
      simpa [List.mem_reverse] using hdone
    | some sub =>
      rw [hfind] at hpass
      have hsubmem : sub ∈ subsOf s := List.mem_of_find?_eq_some hfind
      have hne : sub.id ≠ t := hid s hP sub hsubmem
      have hdone' : t ∉ sub.id :: done := by
        intro hmem
        rcases List.mem_cons.mp hmem with h | h
        · exact hne h.symm
        · exact hdone h
      exact ih ((runL sub.listener s).1) (sub.id :: done)
        (consErr (runL sub.listener s).2 errs) s' log errsO (hstep _ _ hP) hdone' hpass

/-- A registry-neutral listener body leaves the state unchanged and throws
its first `throwErr`, if any. -/
lemma runBody_pure {Data : Type} (body : List Action) (s : FlowState Data)
    (h : body.all pureAct = true) :
    MutableFlowImpl.runBody body s = (s, firstErr body) := by
  induction body with
  | nil => rfl
  | cons a rest ih =>
    have ha : pureAct a = true := by
      have := (List.all_eq_true.mp h) a (by simp)
      simpa using this
    have hrest : rest.all pureAct = true := by
      apply List.all_eq_true.mpr
      intro x hx
      exact (List.all_eq_true.mp h) x (by simp [hx])
    cases a with
    | noop => simpa [MutableFlowImpl.runBody, MutableFlowImpl.runAction, firstErr] using ih hrest
    | throwErr e => simp [MutableFlowImpl.runBody, MutableFlowImpl.runAction, firstErr]
    | subscribeL k => simp [pureAct] at ha
    | unsubscribeS sid => simp [pureAct] at ha

/-- Evaluation of a full `emit` over registry-neutral listeners: the value
is set, every registered subscription is invoked in registration order, and
the thrown failures are collected in that order, identity preserved. -/
lemma emit_pure {Data : Type} (env : Nat → List Action) (s : FlowState Data) (v : Data)
    (fuel : Nat) (hpure : FlowPureB env s = true)
    (hnodup : (s.subs.map (fun sub => sub.id)).Nodup)
    (hfuel : s.subs.length ≤ fuel) :
    MutableFlowImpl.emit env fuel v s
      = some ({ s with value := v }, s.subs.map (fun sub => sub.id),
          s.subs.filterMap (fun sub => firstErr (env sub.listener))) := by
  have hbody : ∀ sub ∈ s.subs, (env sub.listener).all pureAct = true := by
    intro sub hsub
    simpa using (List.all_eq_true.mp hpure) sub hsub
  have hrun : ∀ sub ∈ ({ s with value := v } : FlowState Data).subs,
      (MutableFlowImpl.runBody (env sub.listener) { s with value := v }).1
        = { s with value := v } := by
    intro sub hsub
    rw [runBody_pure _ _ (hbody sub hsub)]
  have h := passLoop_static (fun s => s.subs)
    (fun k s => MutableFlowImpl.runBody (env k) s) { s with value := v } hrun
    s.subs [] fuel [] rfl hnodup hfuel
  have herr : (s.subs.filterMap
        (fun sub => (MutableFlowImpl.runBody (env sub.listener) { s with value := v }).2))
      = s.subs.filterMap (fun sub => firstErr (env sub.listener)) := by
    apply List.filterMap_congr
    intro sub hsub
    rw [runBody_pure _ _ (hbody sub hsub)]
  simp only [List.map_nil, List.reverse_nil] at h
  rw [MutableFlowImpl.emit, MutableFlowImpl.pass, h, herr]
  simp

/-- A state-neutral async listener body leaves the state unchanged and
throws its first `throwErr`, if any. -/
lemma runABody_pure {Data : Type} (body : List AAction) (s : AsyncFlow Data)
    (h : body.all pureAAct = true) :
    MutableAsyncFlowImpl.runABody body s = (s, firstAErr body) := by
  induction body with
  | nil => rfl
  | cons a rest ih =>
    have ha : pureAAct a = true := by
      simpa using (List.all_eq_true.mp h) a (by simp)
    have hrest : rest.all pureAAct = true := by
      apply List.all_eq_true.mpr
      intro x hx
      exact (List.all_eq_true.mp h) x (by simp [hx])
    cases a with
    | noop =>
      simpa [MutableAsyncFlowImpl.runABody, MutableAsyncFlowImpl.runAAction, firstAErr]
        using ih hrest
    | throwErr e =>
      simp [MutableAsyncFlowImpl.runABody, MutableAsyncFlowImpl.runAAction, firstAErr]
    | subscribeExt k => simp [pureAAct] at ha
    | unsubscribeS sid => simp [pureAAct] at ha
    | askPromise => simp [pureAAct] at ha

/-- A state-neutral async listener leaves the state unchanged. -/
lemma runAListener_pure {Data : Type} (env : Nat → List AAction) (l : AListener)
    (s : AsyncFlow Data) (h : aListenerPureB env l = true) :
    MutableAsyncFlowImpl.runAListener env l s = (s, errOfListener env l) := by
  cases l with
  | ext k =>
    simpa [MutableAsyncFlowImpl.runAListener, errOfListener]
      using runABody_pure (env k) s (by simpa [aListenerPureB] using h)
  | resolver p sid => simp [aListenerPureB] at h

/-- The cache-invalidation switch only touches the `promise` field: the
subscriptions are untouched. -/
lemma invalidateFor_subs {Data : Type} (v : AsyncFlowState Data) (s : AsyncFlow Data) :
    (MutableAsyncFlowImpl.invalidateFor v s).subs = s.subs := by
  cases v <;> cases h : MutableAsyncFlowImpl.statusPending s.value <;>
    simp [MutableAsyncFlowImpl.invalidateFor, h]

/-- The cache-invalidation switch clears the cached promise exactly when the
previous status is not pending, whatever the emitted value. -/
lemma invalidateFor_promise {Data : Type} (v : AsyncFlowState Data) (s : AsyncFlow Data) :
    (MutableAsyncFlowImpl.invalidateFor v s).promise
      = cond (MutableAsyncFlowImpl.statusPending s.value) s.promise none := by
  cases v <;> cases h : MutableAsyncFlowImpl.statusPending s.value <;>
    simp [MutableAsyncFlowImpl.invalidateFor, h]

/-- The cache-invalidation switch does not touch the promise id supply. -/
lemma invalidateFor_nextPromiseId {Data : Type} (v : AsyncFlowState Data) (s : AsyncFlow Data) :
    (MutableAsyncFlowImpl.invalidateFor v s).nextPromiseId = s.nextPromiseId := by
  cases v <;> cases h : MutableAsyncFlowImpl.statusPending s.value <;>
    simp [MutableAsyncFlowImpl.invalidateFor, h]

/-- Evaluation of an async notification pass over state-neutral listeners:
every registered subscription is invoked in registration order and the state
is unchanged. -/
lemma passA_pure_eval {Data : Type} (env : Nat → List AAction) (s₂ : AsyncFlow Data)
    (fuel : Nat) (hbody : ∀ sub ∈ s₂.subs, aListenerPureB env sub.listener = true)
    (hnodup : (s₂.subs.map (fun sub => sub.id)).Nodup) (hfuel : s₂.subs.length ≤ fuel) :
    MutableAsyncFlowImpl.pass env fuel s₂ [] []
      = some (s₂, s₂.subs.map (fun sub => sub.id),
          s₂.subs.filterMap (fun sub => errOfListener env sub.listener)) := by
  have hrun : ∀ sub ∈ s₂.subs, (MutableAsyncFlowImpl.runAListener env sub.listener s₂).1 = s₂ := by
    intro sub hsub
    rw [runAListener_pure env sub.listener s₂ (hbody sub hsub)]
  have h := passLoop_static (fun s => s.subs) (MutableAsyncFlowImpl.runAListener env) s₂ hrun
    s₂.subs [] fuel [] rfl hnodup hfuel
  have herr : (s₂.subs.filterMap
        (fun sub => (MutableAsyncFlowImpl.runAListener env sub.listener s₂).2))
      = s₂.subs.filterMap (fun sub => errOfListener env sub.listener) := by
    apply List.filterMap_congr
    intro sub hsub
    rw [runAListener_pure env sub.listener s₂ (hbody sub hsub)]
  simp only [List.map_nil, List.reverse_nil] at h
  rw [MutableAsyncFlowImpl.pass, h, herr]
  simp

/-- Evaluation of a full async `emit` over state-neutral listeners: the
cache-invalidation decision is applied, the value is set, and every
registered subscription is invoked in registration order. -/
lemma emitAsync_pure {Data : Type} (env : Nat → List AAction) (s : AsyncFlow Data)
    (v : AsyncFlowState Data) (fuel : Nat) (hpure : APureB env s = true)
    (hnodup : (s.subs.map (fun sub => sub.id)).Nodup) (hfuel : s.subs.length ≤ fuel) :
    MutableAsyncFlowImpl.emit env fuel v s
      = some ({ MutableAsyncFlowImpl.invalidateFor v s with value := v },
          s.subs.map (fun sub => sub.id),
          s.subs.filterMap (fun sub => errOfListener env sub.listener)) := by
  have hbody : ∀ sub ∈ s.subs, aListenerPureB env sub.listener = true := by
    intro sub hsub
    simpa using (List.all_eq_true.mp hpure) sub hsub
  have hsubs : ({ MutableAsyncFlowImpl.invalidateFor v s with value := v } : AsyncFlow Data).subs
      = s.subs := invalidateFor_subs v s
  have h := passA_pure_eval env { MutableAsyncFlowImpl.invalidateFor v s with value := v } fuel
    (fun sub hsub => hbody sub (hsubs ▸ hsub)) (by rw [hsubs]; exact hnodup)
    (by rw [hsubs]; exact hfuel)
  show MutableAsyncFlowImpl.pass env fuel
      { MutableAsyncFlowImpl.invalidateFor v s with value := v } [] [] = _
  rw [h, hsubs]

/-- Every flow action keeps an id that is absent from the registry and below
the fresh-id supply absent and below the supply. -/
lemma runAction_fresh {Data : Type} (t : Nat) (a : Action) (s : FlowState Data)
    (h1 : ∀ sub ∈ s.subs, sub.id ≠ t) (h2 : t < s.nextId) :
    (∀ sub ∈ (MutableFlowImpl.runAction a s).1.subs, sub.id ≠ t)
      ∧ t < (MutableFlowImpl.runAction a s).1.nextId := by
  cases a with
  | noop => exact ⟨h1, h2⟩
  | throwErr e => exact ⟨h1, h2⟩
  | subscribeL k =>
    constructor
    · intro sub hsub
      simp [MutableFlowImpl.runAction, MutableFlowImpl.subscribe] at hsub
      rcases hsub with h | h
      · exact h1 sub h
      · rw [h]
        show s.nextId ≠ t
        omega
    · simp [MutableFlowImpl.runAction, MutableFlowImpl.subscribe]
      omega
  | unsubscribeS sid =>
    constructor
    · intro sub hsub
      simp [MutableFlowImpl.runAction, MutableFlowImpl.unsubscribe, List.mem_filter] at hsub
      exact h1 sub hsub.1
    · exact h2

/-- A whole listener body keeps such an id absent from the registry. -/
lemma runBody_fresh {Data : Type} (t : Nat) : ∀ (body : List Action) (s : FlowState Data),
    (∀ sub ∈ s.subs, sub.id ≠ t) → t < s.nextId →
    (∀ sub ∈ (MutableFlowImpl.runBody body s).1.subs, sub.id ≠ t)
      ∧ t < (MutableFlowImpl.runBody body s).1.nextId := by
  intro body
  induction body with
  | nil => intro s h1 h2; exact ⟨h1, h2⟩
  | cons a rest ih =>
    intro s h1 h2
    have ha := runAction_fresh t a s h1 h2
    cases he : MutableFlowImpl.runAction a s with
    | mk s' eo =>
      rw [he] at ha
      cases eo with
      | some e => simpa [MutableFlowImpl.runBody, he] using ha
      | none =>
        have := ih s' ha.1 ha.2
        simpa [MutableFlowImpl.runBody, he] using this

/-- A cached promise is returned as-is, without touching the state. -/
lemma asPromise_of_some {Data : Type} (s : AsyncFlow Data) (p : Nat) (h : s.promise = some p) :
    MutableAsyncFlowImpl.asPromise s = (p, s) := by
  simp [MutableAsyncFlowImpl.asPromise, h]

/-- Settling a promise does not touch the cached-promise field. -/
lemma settle_promise {Data : Type} (p : Nat) (r : PromiseResult Data) (s : AsyncFlow Data) :
    (MutableAsyncFlowImpl.settle p r s).promise = s.promise := by
  unfold MutableAsyncFlowImpl.settle
  split <;> rfl

/-- After `asPromise`, the returned promise is the cached one. -/
lemma asPromise_cached {Data : Type} (s : AsyncFlow Data) :
    (MutableAsyncFlowImpl.asPromise s).2.promise = some (MutableAsyncFlowImpl.asPromise s).1 := by
  cases h : s.promise with
  | some p => simp [MutableAsyncFlowImpl.asPromise, h]
  | none =>
    cases hv : s.value with
    | pending => simp [MutableAsyncFlowImpl.asPromise, h, hv, MutableAsyncFlowImpl.subscribe]
    | success d => simp [MutableAsyncFlowImpl.asPromise, h, hv, settle_promise]
    | error e => simp [MutableAsyncFlowImpl.asPromise, h, hv, settle_promise]

/-- The second `asPromise` call returns the same promise and state as the
first (the `??=` memoization). -/
lemma asPromise_idem {Data : Type} (s : AsyncFlow Data) :
    MutableAsyncFlowImpl.asPromise (MutableAsyncFlowImpl.asPromise s).2
      = ((MutableAsyncFlowImpl.asPromise s).1, (MutableAsyncFlowImpl.asPromise s).2) :=
  asPromise_of_some _ _ (asPromise_cached s)

/-- With no cached promise, `asPromise` hands out the next fresh promise
id. -/
lemma asPromise_fst_of_none {Data : Type} (s : AsyncFlow Data) (h : s.promise = none) :
    (MutableAsyncFlowImpl.asPromise s).1 = s.nextPromiseId := by
  cases hv : s.value with
  | pending => simp [MutableAsyncFlowImpl.asPromise, h, hv]
  | success d => simp [MutableAsyncFlowImpl.asPromise, h, hv]
  | error e => simp [MutableAsyncFlowImpl.asPromise, h, hv]

/-- C1: the claim says an emit that stays in the same resolved status — here
the re-emit of the identical `Success(1)` — leaves the cached future
untouched, so the next `asPromise` returns the same future.  It does not:
`MutableAsyncFlowImpl.emit` clears the cache whenever the previous status is
not pending, so after re-emitting `Success(1)` over a cached promise (id 0)
the next `asPromise` creates a fresh promise (id 1). -/
theorem c1_counterexample :
    (MutableAsyncFlowImpl.asPromise (createAsyncFlow (.success 1) : AsyncFlow Nat)).1 = 0
    ∧ MutableAsyncFlowImpl.emit envE 5 (.success 1)
        (MutableAsyncFlowImpl.asPromise (createAsyncFlow (.success 1) : AsyncFlow Nat)).2
      = some (⟨.success 1, [], 0, none, [(0, .resolved 1)], 1⟩, [], [])
    ∧ (MutableAsyncFlowImpl.asPromise
        (⟨.success 1, [], 0, none, [(0, .resolved 1)], 1⟩ : AsyncFlow Nat)).1 = 1
    ∧ (1 : Nat) ≠ 0 := by
  refine ⟨by decide, by decide, by decide, by decide⟩

/-- C1 (amended): an emit whose previous state is resolved (status not
pending) always clears the cached future — including `Success(x)→Success(y)`
and identical re-emits — so a subsequent `asPromise` returns a new, distinct
future; only emits whose previous state is pending leave the cached future
untouched. -/
theorem c1_amended_resolved_emits_invalidate {Data : Type} (env : Nat → List AAction)
    (s : AsyncFlow Data) (v : AsyncFlowState Data) (fuel : Nat) (s' : AsyncFlow Data)
    (log : List Nat) (errsO : List Err) (hpure : APureB env s = true)
    (hnodup : (s.subs.map (fun sub => sub.id)).Nodup) (hfuel : s.subs.length ≤ fuel)
    (hemit : MutableAsyncFlowImpl.emit env fuel v s = some (s', log, errsO)) :
    (MutableAsyncFlowImpl.statusPending s.value = false →
        s'.promise = none
        ∧ ∀ p0 : Nat, s.promise = some p0 → p0 < s.nextPromiseId →
            (MutableAsyncFlowImpl.asPromise s').1 ≠ p0)
    ∧ (MutableAsyncFlowImpl.statusPending s.value = true → s'.promise = s.promise) := by
  rw [emitAsync_pure env s v fuel hpure hnodup hfuel] at hemit
  have hs' : s' = { MutableAsyncFlowImpl.invalidateFor v s with value := v } := by
    simp only [Option.some.injEq, Prod.mk.injEq] at hemit
    exact hemit.1.symm
  have hpromise : s'.promise
      = cond (MutableAsyncFlowImpl.statusPending s.value) s.promise none := by
    rw [hs']
    show (MutableAsyncFlowImpl.invalidateFor v s).promise = _
    exact invalidateFor_promise v s
  have hnpi : s'.nextPromiseId = s.nextPromiseId := by
    rw [hs']
    show (MutableAsyncFlowImpl.invalidateFor v s).nextPromiseId = _
    exact invalidateFor_nextPromiseId v s
  constructor
  · intro hres
    have hpn : s'.promise = none := by rw [hpromise, hres]; rfl
    refine ⟨hpn, ?_⟩
    intro p0 hp0 hlt
    rw [asPromise_fst_of_none s' hpn, hnpi]
    omega
  · intro hpend
    rw [hpromise, hpend]
    rfl

/-- Witness for C1's amended claim at the counterexample input: the identical
re-emit of `Success(1)` over the state holding cached promise 0 clears the
cache, and the next `asPromise` returns a different promise. -/
theorem c1_amended_witness :
    ∃ s' : AsyncFlow Nat,
      MutableAsyncFlowImpl.emit envE 5 (.success 1)
          (⟨.success 1, [], 0, some 0, [(0, .resolved 1)], 1⟩ : AsyncFlow Nat)
        = some (s', [], [])
      ∧ s'.promise = none ∧ (MutableAsyncFlowImpl.asPromise s').1 ≠ 0 := by
  have h := c1_amended_resolved_emits_invalidate envE
    ⟨.success 1, [], 0, some 0, [(0, .resolved 1)], 1⟩ (.success 1) 5
    ⟨.success 1, [], 0, none, [(0, .resolved 1)], 1⟩ [] []
    (by decide) (by decide) (by decide) (by decide)
  exact ⟨⟨.success 1, [], 0, none, [(0, .resolved 1)], 1⟩, by decide,
    (h.1 (by decide)).1, (h.1 (by decide)).2 0 rfl (by decide)⟩

/-- C2: the spec (and the repository's own test "should not call listeners
added during notification stage") requires the pass to notify only a
snapshot of the registry taken before the first observer runs.  The code
instead iterates the live Set, and ECMAScript Set iteration visits entries
appended during the iteration: here listener 0 subscribes a new observer
(subscription id 1) during the pass, and the invocation log of that same
pass is [0, 1] — the newly registered observer is invoked immediately. -/
theorem c2_live_set_visits_added :
    MutableFlowImpl.emit envReentrant 5 (1 : Nat) ⟨0, [⟨0, 0⟩], 1⟩
      = some (⟨1, [⟨0, 0⟩, ⟨1, 1⟩], 2⟩, [0, 1], []) := by
  decide

/-- C3: over observers that may throw (and do nothing else), an `emit(v)`
invokes every registered observer exactly once in order, retains the value
update, and collects exactly the thrown failures, identity preserved and in
observer order; the aggregate error list is empty iff no observer threw. -/
theorem c3_observer_failure_isolation {Data : Type} (env : Nat → List Action)
    (s : FlowState Data) (v : Data) (fuel : Nat) (hpure : FlowPureB env s = true)
    (hnodup : (s.subs.map (fun sub => sub.id)).Nodup) (hfuel : s.subs.length ≤ fuel) :
    ∃ s' log errsO, MutableFlowImpl.emit env fuel v s = some (s', log, errsO)
      ∧ MutableFlowImpl.getSnapshot s' = v
      ∧ log = s.subs.map (fun sub => sub.id)
      ∧ (∀ sub ∈ s.subs, log.count sub.id = 1)
      ∧ errsO = s.subs.filterMap (fun sub => firstErr (env sub.listener))
      ∧ (errsO = [] ↔ ∀ sub ∈ s.subs, firstErr (env sub.listener) = none) := by
  refine ⟨_, _, _, emit_pure env s v fuel hpure hnodup hfuel, rfl, rfl, ?_, rfl, ?_⟩
  · intro sub hsub
    exact List.count_eq_one_of_mem hnodup (List.mem_map.mpr ⟨sub, hsub, rfl⟩)
  · exact List.filterMap_eq_nil_iff

/-- Witness for C3 at the spec's partial-failure scenario [ok, fail(10), ok,
fail(20)]: all four observers run once, the error list is [10, 20], the
value sticks. -/
theorem c3_observer_failure_isolation_witness :
    ∃ s' log errsO, MutableFlowImpl.emit envThrow 9 (7 : Nat) fourFlow = some (s', log, errsO)
      ∧ MutableFlowImpl.getSnapshot s' = 7 ∧ log = [0, 1, 2, 3] ∧ errsO = [10, 20] := by
  obtain ⟨s', log, errsO, h1, h2, h3, h4, h5, h6⟩ :=
    c3_observer_failure_isolation envThrow fourFlow 7 9 (by decide) (by decide) (by decide)
  refine ⟨s', log, errsO, h1, h2, ?_, ?_⟩
  · rw [h3]; rfl
  · rw [h5]; rfl

/-- C4: two `asPromise` calls with no intervening emit return the identical
promise (memoization, for any state — in particular while pending); and
after the pending-created future settles through `emit(Success d)` (cache
kept: previous state was pending), a transition out of the resolved state
(`emit(Pending)`) clears the cache, so the next `asPromise` returns a new,
distinct future: id 1 instead of id 0. -/
theorem c4_future_dedup_and_fresh_after_leaving {Data : Type} (d : Data) :
    (∀ s : AsyncFlow Data,
        MutableAsyncFlowImpl.asPromise (MutableAsyncFlowImpl.asPromise s).2
          = ((MutableAsyncFlowImpl.asPromise s).1, (MutableAsyncFlowImpl.asPromise s).2))
    ∧ (MutableAsyncFlowImpl.asPromise (createAsyncFlow (.pending : AsyncFlowState Data))).1 = 0
    ∧ MutableAsyncFlowImpl.emit envE 5 (.success d)
          (MutableAsyncFlowImpl.asPromise (createAsyncFlow (.pending : AsyncFlowState Data))).2
        = some (⟨.success d, [], 1, some 0, [(0, .resolved d)], 1⟩, [0], [])
    ∧ MutableAsyncFlowImpl.emit envE 5 .pending
          (⟨.success d, [], 1, some 0, [(0, .resolved d)], 1⟩ : AsyncFlow Data)
        = some (⟨.pending, [], 1, none, [(0, .resolved d)], 1⟩, [], [])
    ∧ (MutableAsyncFlowImpl.asPromise
          (⟨.pending, [], 1, none, [(0, .resolved d)], 1⟩ : AsyncFlow Data)).1 = 1
    ∧ (1 : Nat) ≠ 0 :=
  ⟨fun s => asPromise_idem s, rfl, rfl, rfl, rfl, by decide⟩

/-- C5: a future obtained while pending subscribes the internal resolver
(subscription id 0).  A pending re-emit invokes the resolver (log [0]) but
leaves the promise unsettled and the subscription in place; the first
`Success d` resolves the promise with `d` and removes the subscription; the
first `Error e` rejects it with `e` and removes the subscription. -/
theorem c5_resolver_behaviour {Data : Type} (d : Data) (e : Err) :
    MutableAsyncFlowImpl.asPromise (createAsyncFlow (.pending : AsyncFlowState Data))
        = (0, ⟨.pending, [⟨0, .resolver 0 0⟩], 1, some 0, [], 1⟩)
    ∧ MutableAsyncFlowImpl.emit envE 5 .pending
          (⟨.pending, [⟨0, .resolver 0 0⟩], 1, some 0, [], 1⟩ : AsyncFlow Data)
        = some (⟨.pending, [⟨0, .resolver 0 0⟩], 1, some 0, [], 1⟩, [0], [])
    ∧ MutableAsyncFlowImpl.emit envE 5 (.success d)
          (⟨.pending, [⟨0, .resolver 0 0⟩], 1, some 0, [], 1⟩ : AsyncFlow Data)
        = some (⟨.success d, [], 1, some 0, [(0, .resolved d)], 1⟩, [0], [])
    ∧ MutableAsyncFlowImpl.emit envE 5 (.error e)
          (⟨.pending, [⟨0, .resolver 0 0⟩], 1, some 0, [], 1⟩ : AsyncFlow Data)
        = some (⟨.error e, [], 1, some 0, [(0, .rejected e)], 1⟩, [0], []) :=
  ⟨rfl, rfl, rfl, rfl⟩

/-- C6: emitting never compares the new value with the old one.  Base flow:
emitting the current value again still runs a full pass over every
registered observer.  Async flow: for any previous state and any emitted
state — including `Pending→Pending` and `Success(x)→Success(x)` — the pass
invokes every registered observer. -/
theorem c6_no_equality_dedup :
    (∀ (Data : Type) (env : Nat → List Action) (s : FlowState Data) (fuel : Nat),
        FlowPureB env s = true → (s.subs.map (fun sub => sub.id)).Nodup →
        s.subs.length ≤ fuel →
        MutableFlowImpl.emit env fuel (MutableFlowImpl.getSnapshot s) s
          = some (s, s.subs.map (fun sub => sub.id),
              s.subs.filterMap (fun sub => firstErr (env sub.listener))))
    ∧ (∀ (Data : Type) (env : Nat → List AAction) (s : AsyncFlow Data)
          (v : AsyncFlowState Data) (fuel : Nat),
        APureB env s = true → (s.subs.map (fun sub => sub.id)).Nodup →
        s.subs.length ≤ fuel →
        MutableAsyncFlowImpl.emit env fuel v s
          = some ({ MutableAsyncFlowImpl.invalidateFor v s with value := v },
              s.subs.map (fun sub => sub.id),
              s.subs.filterMap (fun sub => errOfListener env sub.listener))) := by
  constructor
  · intro Data env s fuel hpure hnodup hfuel
    exact emit_pure env s s.value fuel hpure hnodup hfuel
  · intro Data env s v fuel hpure hnodup hfuel
    exact emitAsync_pure env s v fuel hpure hnodup hfuel

/-- Witness for C6: re-emitting the current value 7 notifies both observers;
the async `Success(1)→Success(1)` re-emit still notifies its observer. -/
theorem c6_no_equality_dedup_witness :
    MutableFlowImpl.emit envNoop 5 (7 : Nat) ⟨7, [⟨0, 0⟩, ⟨1, 1⟩], 2⟩
      = some (⟨7, [⟨0, 0⟩, ⟨1, 1⟩], 2⟩, [0, 1], [])
    ∧ MutableAsyncFlowImpl.emit envE 5 (.success 1)
        (⟨.success 1, [⟨0, .ext 0⟩], 1, some 0, [(0, .resolved 1)], 1⟩ : AsyncFlow Nat)
      = some (⟨.success 1, [⟨0, .ext 0⟩], 1, none, [(0, .resolved 1)], 1⟩, [0], []) := by
  constructor
  · exact c6_no_equality_dedup.1 Nat envNoop ⟨7, [⟨0, 0⟩, ⟨1, 1⟩], 2⟩ 5
      (by decide) (by decide) (by decide)
  · exact c6_no_equality_dedup.2 Nat envE
      ⟨.success 1, [⟨0, .ext 0⟩], 1, some 0, [(0, .resolved 1)], 1⟩ (.success 1) 5
      (by decide) (by decide) (by decide)

/-- C7: on a bridge created directly in `Error e`, `asPromise` returns a
promise already rejected with exactly that cause (same opaque token, no
wrapping) without any emit; symmetrically for `Success d`, already resolved
with that data. -/
theorem c7_immediate_settlement {Data : Type} (e : Err) (d : Data) :
    MutableAsyncFlowImpl.asPromise (createAsyncFlow (.error e) : AsyncFlow Data)
        = (0, ⟨.error e, [], 0, some 0, [(0, .rejected e)], 1⟩)
    ∧ MutableAsyncFlowImpl.asPromise (createAsyncFlow (.success d) : AsyncFlow Data)
        = (0, ⟨.success d, [], 0, some 0, [(0, .resolved d)], 1⟩) :=
  ⟨rfl, rfl⟩

/-- C8: during a pass, a subscription that is no longer registered (for
example because an earlier observer cancelled it), was not yet invoked, and
cannot be re-created (its id is below the fresh-id supply) is not invoked in
the remainder of the pass: cancellation takes effect synchronously and
immediately. -/
theorem c8_cancelled_not_invoked {Data : Type} (env : Nat → List Action) (fuel : Nat)
    (s : FlowState Data) (done : List Nat) (errs : List Err) (t : Nat)
    (s' : FlowState Data) (log : List Nat) (errsO : List Err)
    (hcancelled : ∀ sub ∈ s.subs, sub.id ≠ t) (hfresh : t < s.nextId) (hdone : t ∉ done)
    (hpass : MutableFlowImpl.pass env fuel s done errs = some (s', log, errsO)) :
    t ∉ log :=
  @passLoop_not_logged (FlowState Data) Nat (fun s => s.subs)
    (fun k s => MutableFlowImpl.runBody (env k) s)
    (fun s => (∀ sub ∈ s.subs, sub.id ≠ t) ∧ t < s.nextId) t
    (fun k s hP => runBody_fresh t (env k) s hP.1 hP.2)
    (fun _ hP => hP.1) fuel s done errs s' log errsO ⟨hcancelled, hfresh⟩ hdone hpass

/-- Witness for C8: in the flow [sub 0 (cancels sub 1), sub 1], the full
emit invokes only sub 0; the theorem applied at the mid-pass state right
after listener 0 ran (sub 1 removed, only sub 0 visited) shows sub 1 is not
invoked in the rest of that pass. -/
theorem c8_cancelled_not_invoked_witness :
    MutableFlowImpl.emit envCancel 5 (0 : Nat) ⟨9, [⟨0, 0⟩, ⟨1, 1⟩], 2⟩
        = some (⟨0, [⟨0, 0⟩], 2⟩, [0], [])
    ∧ (1 : Nat) ∉ ([0] : List Nat) := by
  constructor
  · decide
  · exact c8_cancelled_not_invoked envCancel 5 ⟨0, [⟨0, 0⟩], 2⟩ [0] [] 1
      ⟨0, [⟨0, 0⟩], 2⟩ [0] [] (by decide) (by decide) (by decide) (by decide)

/-- C9: a single emit invokes observers in registration order; subscribing
the same callback twice yields two registrations with distinct identities,
each independently cancellable; and a subscription's cancel is idempotent —
repeated calls and cancels of unregistered subscriptions are no-ops. -/
theorem c9_registry_invariants :
    (∀ (Data : Type) (env : Nat → List Action) (s : FlowState Data) (v : Data) (fuel : Nat),
        FlowPureB env s = true → (s.subs.map (fun sub => sub.id)).Nodup →
        s.subs.length ≤ fuel →
        ∃ s' errsO, MutableFlowImpl.emit env fuel v s
          = some (s', s.subs.map (fun sub => sub.id), errsO))
    ∧ (∀ (Data : Type) (s : FlowState Data) (k : Nat),
        (MutableFlowImpl.subscribe k s).2
            ≠ (MutableFlowImpl.subscribe k (MutableFlowImpl.subscribe k s).1).2
          ∧ (MutableFlowImpl.subscribe k (MutableFlowImpl.subscribe k s).1).1.subs
            = s.subs ++ [⟨s.nextId, k⟩, ⟨s.nextId + 1, k⟩]
          ∧ ((∀ sub ∈ s.subs, sub.id < s.nextId) →
              MutableFlowImpl.unsubscribe s.nextId
                  (MutableFlowImpl.subscribe k (MutableFlowImpl.subscribe k s).1).1
                = ⟨s.value, s.subs ++ [⟨s.nextId + 1, k⟩], s.nextId + 2⟩)
          ∧ ((∀ sub ∈ s.subs, sub.id < s.nextId) →
              MutableFlowImpl.unsubscribe (s.nextId + 1)
                  (MutableFlowImpl.subscribe k (MutableFlowImpl.subscribe k s).1).1
                = ⟨s.value, s.subs ++ [⟨s.nextId, k⟩], s.nextId + 2⟩))
    ∧ (∀ (Data : Type) (s : FlowState Data) (sid : Nat),
        MutableFlowImpl.unsubscribe sid (MutableFlowImpl.unsubscribe sid s)
            = MutableFlowImpl.unsubscribe sid s
          ∧ ((∀ sub ∈ s.subs, sub.id ≠ sid) → MutableFlowImpl.unsubscribe sid s = s)) := by
  refine ⟨?_, ?_, ?_⟩
  · intro Data env s v fuel hpure hnodup hfuel
    exact ⟨_, _, emit_pure env s v fuel hpure hnodup hfuel⟩
  · intro Data s k
    refine ⟨by simp [MutableFlowImpl.subscribe], by simp [MutableFlowImpl.subscribe], ?_, ?_⟩
    · intro hwf
      have h1 : s.subs.filter (fun sub => sub.id != s.nextId) = s.subs := by
        apply List.filter_eq_self.mpr
        intro sub hsub
        have := hwf sub hsub
        simp [bne_iff_ne]
        omega
      simp [MutableFlowImpl.unsubscribe, MutableFlowImpl.subscribe, List.filter_append, h1,
        List.filter_cons, bne_iff_ne]
    · intro hwf
      have h1 : s.subs.filter (fun sub => sub.id != s.nextId + 1) = s.subs := by
        apply List.filter_eq_self.mpr
        intro sub hsub
        have := hwf sub hsub
        simp [bne_iff_ne]
        omega
      simp [MutableFlowImpl.unsubscribe, MutableFlowImpl.subscribe, List.filter_append, h1,
        List.filter_cons, bne_iff_ne]
  · intro Data s sid
    constructor
    · simp [MutableFlowImpl.unsubscribe, List.filter_filter]
    · intro h
      show { s with subs := s.subs.filter (fun sub => sub.id != sid) } = s
      have hf : s.subs.filter (fun sub => sub.id != sid) = s.subs := by
        apply List.filter_eq_self.mpr
        intro sub hsub
        simp [bne_iff_ne]
        exact h sub hsub
      rw [hf]

/-- Witness for C9: order of a concrete four-observer emit, distinct
identities for a twice-subscribed callback, independent cancellation, and
idempotent/no-op cancels, all at concrete inputs. -/
theorem c9_registry_invariants_witness :
    (∃ s' errsO, MutableFlowImpl.emit envThrow 9 (3 : Nat) fourFlow
        = some (s', [0, 1, 2, 3], errsO))
    ∧ (MutableFlowImpl.subscribe 5 (createFlow (0 : Nat))).2
        ≠ (MutableFlowImpl.subscribe 5 (MutableFlowImpl.subscribe 5 (createFlow (0 : Nat))).1).2
    ∧ MutableFlowImpl.unsubscribe 4
        (MutableFlowImpl.subscribe 5 (MutableFlowImpl.subscribe 5 fourFlow).1).1
      = ⟨0, fourFlow.subs ++ [⟨5, 5⟩], 6⟩
    ∧ MutableFlowImpl.unsubscribe 0 (MutableFlowImpl.unsubscribe 0 fourFlow)
      = MutableFlowImpl.unsubscribe 0 fourFlow
    ∧ MutableFlowImpl.unsubscribe 99 fourFlow = fourFlow := by
  refine ⟨?_, ?_, ?_, ?_, ?_⟩
  · obtain ⟨s', errsO, h⟩ := c9_registry_invariants.1 Nat envThrow fourFlow 3 9
      (by decide) (by decide) (by decide)
    exact ⟨s', errsO, h⟩
  · exact (c9_registry_invariants.2.1 Nat (createFlow 0) 5).1
  · exact (c9_registry_invariants.2.1 Nat fourFlow 5).2.2.1 (by decide)
  · exact (c9_registry_invariants.2.2 Nat fourFlow 0).1
  · exact (c9_registry_invariants.2.2 Nat fourFlow 99).2 (by decide)

/-- C10: the cache-invalidation decision (based on the previous state) and
the value update happen before the notification pass.  First scenario: from
a resolved state holding cached promise 0, an emit of `Success d` whose pass
contains an observer calling `asPromise` and an observer that throws: the
observer obtains a fresh promise (id 1) already reflecting the new state
(resolved with `d`), and although the pass collects the failure `e`, the
final state keeps the fresh cache — nothing is rolled back.  Second
scenario: from a pending state the rule preserves the cache, and the
observer calling `asPromise` during the pass obtains the preserved promise
0. -/
theorem c10_invalidation_precedes_pass {Data : Type} (d0 d : Data) (e : Err) :
    MutableAsyncFlowImpl.emit (envAsk e) 5 (.success d)
        (⟨.success d0, [⟨0, .ext 0⟩, ⟨1, .ext 1⟩], 2, some 0, [(0, .resolved d0)], 1⟩ :
          AsyncFlow Data)
      = some (⟨.success d, [⟨0, .ext 0⟩, ⟨1, .ext 1⟩], 2, some 1,
            [(0, .resolved d0), (1, .resolved d)], 2⟩, [0, 1], [e])
    ∧ MutableAsyncFlowImpl.emit (envAsk e) 5 (.success d)
        (⟨.pending, [⟨0, .ext 0⟩], 1, some 0, [], 1⟩ : AsyncFlow Data)
      = some (⟨.success d, [⟨0, .ext 0⟩], 1, some 0, [], 1⟩, [0], [])
    ∧ (1 : Nat) ≠ 0 :=
  ⟨rfl, rfl, by decide⟩

end TsipFlow
